import Mathlib

/-!
Verification of musictheorpy's `scales.py` against its design specification.

The module `scales.py` is embedded shallowly: its module-level tables become
Lean constants, its functions become Lean functions, and Python exceptions
become an explicit `PyError` type threaded through `Except`.  The collaborators
`musictheorpy.notes.Note` and `musictheorpy.interval_utils`
(`SCALE_INTERVALS`, `INTERVAL_NOTE_PAIRS`) are not part of the core source;
they are modelled from the specification's description of them (see the doc
comments marked "Modelled from the spec").
-/

namespace Musictheorpy

/-- Decidable equality for `Except`, needed to evaluate claims on concrete inputs. -/
instance {ε α : Type} [DecidableEq ε] [DecidableEq α] : DecidableEq (Except ε α) := by
  intro x y
  cases x with
  | error e =>
    cases y with
    | error f => exact decidable_of_iff (e = f) (by simp)
    | ok b => exact isFalse (by simp)
  | ok a =>
    cases y with
    | error f => exact isFalse (by simp)
    | ok b => exact decidable_of_iff (a = b) (by simp)

/-- Letter names A through G of the diatonic notes. -/
inductive Letter
  | A | B | C | D | E | F | G
deriving DecidableEq, Repr, Fintype

/-- Accidentals supported by spelled pitches: none, single or double sharps and flats. -/
inductive Accidental
  | doubleFlat | flat | natural | sharp | doubleSharp
deriving DecidableEq, Repr, Fintype

/-- Modelled from the spec: the external `Note` primitive of `musictheorpy.notes`.
Identity is (letter A-G, accidental in none/sharp/flat/double-sharp/double-flat);
immutable; two Notes are equal iff letter and accidental match exactly. -/
structure Note where
  letter : Letter
  accidental : Accidental
deriving DecidableEq, Repr, Fintype

/-- String form of a letter name. -/
def Letter.str : Letter → String
  | .A => "A" | .B => "B" | .C => "C" | .D => "D" | .E => "E" | .F => "F" | .G => "G"

/-- String form of an accidental, as suffixed to a letter name. -/
def Accidental.str : Accidental → String
  | .doubleFlat => "bb" | .flat => "b" | .natural => "" | .sharp => "#" | .doubleSharp => "##"

/-- Modelled from the spec: the canonical display name exposed by the `Note`
primitive (its `qualified_name` property), e.g. "C", "F#", "Bb", "G##". -/
def Note.qualified_name (n : Note) : String :=
  n.letter.str ++ n.accidental.str

/-- Parse a letter name character. -/
def parseLetter : Char → Option Letter
  | 'A' => some .A | 'B' => some .B | 'C' => some .C | 'D' => some .D
  | 'E' => some .E | 'F' => some .F | 'G' => some .G | _ => none

/-- Parse an accidental suffix. -/
def parseAccidental (s : String) : Option Accidental :=
  if s = "" then some .natural
  else if s = "#" then some .sharp
  else if s = "##" then some .doubleSharp
  else if s = "b" then some .flat
  else if s = "bb" then some .doubleFlat
  else none

/-- Modelled from the spec: the `Note` constructor `new(name) -> Note` of the
external Note primitive, parsing a spelled note name such as "C#" or "Bb". -/
def noteFromName (name : String) : Option Note :=
  match name.toList with
  | [] => none
  | c :: rest =>
    match parseLetter c, parseAccidental (String.mk rest) with
    | some l, some a => some ⟨l, a⟩
    | _, _ => none

/-- Semitone position of each natural letter within the octave (C = 0). -/
def Letter.semis : Letter → Int
  | .C => 0 | .D => 2 | .E => 4 | .F => 5 | .G => 7 | .A => 9 | .B => 11

/-- Semitone offset contributed by an accidental. -/
def Accidental.offset : Accidental → Int
  | .doubleFlat => -2 | .flat => -1 | .natural => 0 | .sharp => 1 | .doubleSharp => 2

/-- The next letter name upward (wrapping G back to A). -/
def Letter.next : Letter → Letter
  | .A => .B | .B => .C | .C => .D | .D => .E | .E => .F | .F => .G | .G => .A

/-- Step a letter upward by a number of diatonic letter steps. -/
def Letter.step (l : Letter) : Nat → Letter
  | 0 => l
  | n + 1 => l.next.step n

/-- Accidental whose semitone offset is the given integer, when one exists. -/
def accidentalFromOffset : Int → Option Accidental
  | -2 => some .doubleFlat
  | -1 => some .flat
  | 0 => some .natural
  | 1 => some .sharp
  | 2 => some .doubleSharp
  | _ => none

/-- Modelled from the spec: the external Interval Table of
`musictheorpy.interval_utils` (`INTERVAL_NOTE_PAIRS`): keyed by tonic, it maps
each scale-relevant interval to the correctly spelled note name reachable from
that tonic.  An interval is given as (diatonic letter steps, semitones), which
determines the correct spelling uniquely: the target letter is the tonic's
letter advanced by the letter steps, and the accidental makes up the semitone
difference.  The lookup is empty for strings that are not spelled note names,
and for pairs whose correct spelling would need more than a double accidental. -/
def INTERVAL_NOTE_PAIRS (tonic : String) (interval : Nat × Nat) : Option String :=
  match noteFromName tonic with
  | none => none
  | some tn =>
    let l' := tn.letter.step interval.1
    let target : Int := tn.letter.semis + tn.accidental.offset + (interval.2 : Int)
    let r : Int := (target - l'.semis) % 12
    let o : Int := if r ≤ 2 then r else r - 12
    match accidentalFromOffset o with
    | some a => some (Note.qualified_name ⟨l', a⟩)
    | none => none

/-- Modelled from the spec: the external `SCALE_INTERVALS` table of
`musictheorpy.interval_utils`, mapping each supported quality name to its
ordered interval pattern (seven intervals, starting at the unison).  The
supported qualities are the spec's closed set MAJOR, NATURAL MINOR,
HARMONIC MINOR, MELODIC MINOR; any other key is missing from the table. -/
def SCALE_INTERVALS (quality : String) : Option (List (Nat × Nat)) :=
  if quality = "MAJOR" then
    some [(0, 0), (1, 2), (2, 4), (3, 5), (4, 7), (5, 9), (6, 11)]
  else if quality = "NATURAL MINOR" then
    some [(0, 0), (1, 2), (2, 3), (3, 5), (4, 7), (5, 8), (6, 10)]
  else if quality = "HARMONIC MINOR" then
    some [(0, 0), (1, 2), (2, 3), (3, 5), (4, 7), (5, 8), (6, 11)]
  else if quality = "MELODIC MINOR" then
    some [(0, 0), (1, 2), (2, 3), (3, 5), (4, 7), (5, 9), (6, 11)]
  else none

/-- Python exceptions arising in `scales.py`, made explicit.  `invalidTonicError`
and `invalidDegreeError` embed the module's two exception classes (carrying
their message strings); `keyError` embeds a raw dictionary `KeyError` (carrying
the missing key); `indexError` embeds a raw sequence `IndexError`. -/
inductive PyError
  | invalidTonicError (msg : String)
  | invalidDegreeError (msg : String)
  | keyError (key : String)
  | indexError
deriving DecidableEq, Repr

/-- Embedding of `VALID_SCALE_NAMES` from `scales.py`: the legal-tonic list for
each of the keys "MAJOR" and "MINOR" (any other key is absent). -/
def VALID_SCALE_NAMES (key : String) : List String :=
  if key = "MAJOR" then
    ["A", "B", "C", "D", "E", "F", "G",
     "C#", "F#",
     "Ab", "Bb", "Cb", "Db", "Eb", "Gb"]
  else if key = "MINOR" then
    ["A", "B", "C", "D", "E", "F", "G",
     "A#", "D#", "G#", "C#", "F#",
     "Ab", "Eb", "Bb"]
  else []

/-- Embedding of `SHARPS` from `scales.py`. -/
def SHARPS : List String := ["F#", "C#", "G#", "D#", "A#", "E#", "B#"]

/-- Embedding of `FLATS` from `scales.py`. -/
def FLATS : List String := ["Bb", "Eb", "Ab", "Db", "Gb", "Cb", "Fb"]

/-- Embedding of `KEY_SIGNATURE_NUMBERS` from `scales.py`, as an association
list from qualified tonic to signed signature number. -/
def KEY_SIGNATURE_NUMBERS : List (String × Int) :=
  [("C MAJOR", 0), ("G MAJOR", 1), ("D MAJOR", 2), ("A MAJOR", 3), ("E MAJOR", 4), ("B MAJOR", 5),
   ("F# MAJOR", 6), ("C# MAJOR", 7),
   ("F MAJOR", -1), ("Bb MAJOR", -2), ("Eb MAJOR", -3), ("Ab MAJOR", -4), ("Db MAJOR", -5),
   ("Gb MAJOR", -6), ("Cb MAJOR", -7),
   ("A MINOR", 0), ("E MINOR", 1), ("B MINOR", 2), ("F# MINOR", 3), ("C# MINOR", 4), ("G# MINOR", 5),
   ("D# MINOR", 6), ("A# MINOR", 7),
   ("D MINOR", -1), ("G MINOR", -2), ("C MINOR", -3), ("F MINOR", -4), ("Bb MINOR", -5),
   ("Eb MINOR", -6), ("Ab MINOR", -7)]

/-- Embedding of `KEY_SIGNATURES` from `scales.py`: signature number 0 maps to
the empty list, positive n to the first n of `SHARPS`, negative n to the first
|n| of `FLATS`; the dictionary has keys -7 through 7 only. -/
def KEY_SIGNATURES (n : Int) : Option (List String) :=
  if n = 0 then some []
  else if 1 ≤ n ∧ n ≤ 7 then some (SHARPS.take n.toNat)
  else if -7 ≤ n ∧ n ≤ -1 then some (FLATS.take (-n).toNat)
  else none

/-- Test whether the first list is an initial segment of the second. -/
def leadsWith : List Char → List Char → Bool
  | [], _ => true
  | _ :: _, [] => false
  | p :: ps, c :: cs => p = c && leadsWith ps cs

/-- Test whether the first list occurs as a contiguous run inside the second. -/
def occursIn (pat : List Char) : List Char → Bool
  | [] => pat.isEmpty
  | c :: cs => leadsWith pat (c :: cs) || occursIn pat cs

/-- Embedding of Python's substring test `sub in s`. -/
def pyIn (sub s : String) : Bool :=
  occursIn sub.toList s.toList

/-- The result of `unpack_scale_name`: a dictionary with keys TONIC and QUALITY. -/
structure UnpackedScaleName where
  TONIC : String
  QUALITY : String
deriving DecidableEq, Repr

/-- Split a character list at its first space: everything before it and
everything after it, or nothing when no space occurs. -/
def splitFirstSpace : List Char → Option (List Char × List Char)
  | [] => none
  | c :: cs =>
    if c = ' ' then some ([], cs)
    else
      match splitFirstSpace cs with
      | none => none
      | some (l, r) => some (c :: l, r)

/-- Embedding of `unpack_scale_name` from `scales.py`: Python's
`scale.split(' ', 1)` cuts at the first space and keeps the remainder whole,
so the tonic is everything before the first space and the quality everything
after it; a name with no space makes `split_scale[1]` raise an `IndexError`. -/
def unpack_scale_name (scale : String) : Except PyError UnpackedScaleName :=
  match splitFirstSpace scale.toList with
  | none => .error .indexError
  | some (t, rest) => .ok ⟨String.mk t, String.mk rest⟩

/-- The message of the `InvalidTonicError` raised by `validate_tonic`. -/
def invalidTonicMessage (tonic : String) : String :=
  "Invalid tonic: " ++ tonic ++ ". It is possible that this tonic is a valid note name but that " ++
  "building the desired scale from this note would result in a scale with an invalid " ++
  "key signature."

/-- Embedding of `validate_tonic` from `scales.py`: pick the minor legal-tonic
list when the quality contains "MINOR", else the major list, and raise
`InvalidTonicError` when the tonic is not in the chosen list. -/
def validate_tonic (u : UnpackedScaleName) : Except PyError Unit :=
  let valid_tonics :=
    if pyIn "MINOR" u.QUALITY then VALID_SCALE_NAMES "MINOR" else VALID_SCALE_NAMES "MAJOR"
  if u.TONIC ∈ valid_tonics then .ok ()
  else .error (.invalidTonicError (invalidTonicMessage u.TONIC))

/-- Embedding of `build_scale` from `scales.py`: look up the quality's interval
pattern (a missing quality raises a raw `KeyError`), resolve each interval
through the interval table keyed by the tonic, and build a `Note` from each
resolved name. -/
def build_scale (tonic quality : String) : Except PyError (List Note) := do
  let scale_intervals ←
    match SCALE_INTERVALS quality with
    | some pat => Except.ok pat
    | none => Except.error (.keyError quality)
  let scale_note_names ← scale_intervals.mapM (fun interval =>
    match INTERVAL_NOTE_PAIRS tonic interval with
    | some nm => Except.ok nm
    | none => Except.error (.keyError tonic))
  scale_note_names.mapM (fun nm =>
    match noteFromName nm with
    | some n => Except.ok n
    | none => Except.error (.keyError nm))

/-- Embedding of `fetch_key_signature` from `scales.py`: qualify the tonic with
" MINOR" when the quality contains "MINOR" and " MAJOR" otherwise, then look up
the signature number and expand it; a missing dictionary key raises a raw
`KeyError`. -/
def fetch_key_signature (tonic quality : String) : Except PyError (List String) :=
  let qualified_tonic := tonic ++ (if pyIn "MINOR" quality then " MINOR" else " MAJOR")
  match KEY_SIGNATURE_NUMBERS.lookup qualified_tonic with
  | none => .error (.keyError qualified_tonic)
  | some num =>
    match KEY_SIGNATURES num with
    | none => .error (.keyError (toString num))
    | some sig => .ok sig

/-- A fully constructed `Scale` object: the four attributes set by `__init__`. -/
structure Scale where
  tonic : String
  quality : String
  notes : List Note
  key_signature : List String
deriving DecidableEq, Repr

/-- Embedding of `Scale.__init__` from `scales.py`: unpack the scale name,
validate the tonic, build the note sequence and fetch the key signature; any
raised exception aborts construction. -/
def Scale.init (scale_name : String) : Except PyError Scale := do
  let unpacked ← unpack_scale_name scale_name
  let _ ← validate_tonic unpacked
  let notes ← build_scale unpacked.TONIC unpacked.QUALITY
  let ks ← fetch_key_signature unpacked.TONIC unpacked.QUALITY
  Except.ok ⟨unpacked.TONIC, unpacked.QUALITY, notes, ks⟩

/-- Embedding of the `degree_names` dictionary inside `Scale.__getitem__`. -/
def degree_names : List (String × Nat) :=
  [("TONIC", 0), ("SUPERTONIC", 1), ("MEDIANT", 2), ("SUBDOMINANT", 3),
   ("DOMINANT", 4), ("SUBMEDIANT", 5), ("LEADING TONE", 6)]

/-- Embedding of `Scale.__getitem__` from `scales.py`: scales whose quality is
neither "MAJOR" nor contains "MINOR" raise `InvalidDegreeError`; otherwise the
degree name is looked up case-sensitively and the note at its index returned,
with an unrecognized name raising `InvalidDegreeError` carrying the name. -/
def Scale.getitem (sc : Scale) (degree : String) : Except PyError Note :=
  if sc.quality ≠ "MAJOR" ∧ pyIn "MINOR" sc.quality = false then
    .error (.invalidDegreeError "Only major and minor scales are subscriptable")
  else
    match degree_names.lookup degree with
    | some i =>
      match sc.notes.get? i with
      | some n => .ok n
      | none => .error .indexError
    | none => .error (.invalidDegreeError ("Invalid degree name: " ++ degree))

/-- Embedding of `Scale.__contains__` from `scales.py`: membership of a note in
the scale's note sequence. -/
def Scale.containsNote (sc : Scale) (note : Note) : Bool :=
  sc.notes.contains note

/-- Embedding of `Scale.ascend` from `scales.py`: the qualified name of each
note in the scale, in ascending order. -/
def Scale.ascend (sc : Scale) : List String :=
  sc.notes.map Note.qualified_name

/-! Helper lemmas -/

/-- Reduction of monadic bind on an `Except.ok` value. -/
theorem exbind_ok {α β : Type} (a : α) (f : α → Except PyError β) :
    (Except.ok a : Except PyError α) >>= f = f a := rfl

/-- Reduction of monadic bind on an `Except.error` value. -/
theorem exbind_error {α β : Type} (e : PyError) (f : α → Except PyError β) :
    (Except.error e : Except PyError α) >>= f = Except.error e := rfl

/-- Characterization of `Scale.init` as a cascade of its four steps. -/
theorem Scale.init_eq (s : String) :
    Scale.init s =
      match unpack_scale_name s with
      | .error e => .error e
      | .ok u =>
        match validate_tonic u with
        | .error e => .error e
        | .ok _ =>
          match build_scale u.TONIC u.QUALITY with
          | .error e => .error e
          | .ok notes =>
            match fetch_key_signature u.TONIC u.QUALITY with
            | .error e => .error e
            | .ok ks => .ok ⟨u.TONIC, u.QUALITY, notes, ks⟩ := by
  unfold Scale.init
  cases hu : unpack_scale_name s with
  | error e => rfl
  | ok u =>
    rw [exbind_ok]
    cases hv : validate_tonic u with
    | error e => simp only [exbind_ok, exbind_error, hv]
    | ok x =>
      rw [exbind_ok]
      cases hb : build_scale u.TONIC u.QUALITY with
      | error e => simp only [exbind_ok, exbind_error, hv, hb]
      | ok notes =>
        rw [exbind_ok]
        cases hf : fetch_key_signature u.TONIC u.QUALITY with
        | error e => simp only [exbind_ok, exbind_error, hv, hb, hf]
        | ok ks => simp only [exbind_ok, exbind_error, hv, hb, hf]

/-- A successful construction factors into its four successful steps. -/
theorem Scale.init_ok_elim {s : String} {sc : Scale} (h : Scale.init s = .ok sc) :
    ∃ u, unpack_scale_name s = .ok u ∧ validate_tonic u = .ok () ∧
      build_scale u.TONIC u.QUALITY = .ok sc.notes ∧
      fetch_key_signature u.TONIC u.QUALITY = .ok sc.key_signature ∧
      sc.tonic = u.TONIC ∧ sc.quality = u.QUALITY := by
  rw [Scale.init_eq] at h
  cases hu : unpack_scale_name s with
  | error e => rw [hu] at h; exact absurd h (by simp)
  | ok u =>
    rw [hu] at h
    cases hv : validate_tonic u with
    | error e => simp only [hv] at h; exact absurd h (by simp)
    | ok x =>
      simp only [hv] at h
      cases hb : build_scale u.TONIC u.QUALITY with
      | error e => simp only [hb] at h; exact absurd h (by simp)
      | ok notes =>
        simp only [hb] at h
        cases hf : fetch_key_signature u.TONIC u.QUALITY with
        | error e => simp only [hf] at h; exact absurd h (by simp)
        | ok ks =>
          simp only [hf, Except.ok.injEq] at h
          subst h
          exact ⟨u, rfl, (by cases x; exact hv), hb, hf, rfl, rfl⟩

/-! Claim theorems -/

/-- C1: constructing a Scale from "TONIC QUALITY" validates the tonic against
the legal-tonic list selected by the quality (the minor list when the quality
contains "MINOR", the major list otherwise); for a tonic outside the applicable
list, construction fails with an `InvalidTonicError` whose message carries the
offending tonic, and for a tonic inside the list, validation passes. -/
theorem C1_tonic_validation (s t q : String)
    (hu : unpack_scale_name s = .ok ⟨t, q⟩) :
    (t ∉ (if pyIn "MINOR" q then VALID_SCALE_NAMES "MINOR" else VALID_SCALE_NAMES "MAJOR") →
      Scale.init s = .error (.invalidTonicError (invalidTonicMessage t))) ∧
    (t ∈ (if pyIn "MINOR" q then VALID_SCALE_NAMES "MINOR" else VALID_SCALE_NAMES "MAJOR") →
      validate_tonic ⟨t, q⟩ = .ok ()) ∧
    (∃ suffix, invalidTonicMessage t = "Invalid tonic: " ++ t ++ suffix) := by
  refine ⟨?_, ?_, ?_⟩
  · intro hmem
    have hv : validate_tonic ⟨t, q⟩ = .error (.invalidTonicError (invalidTonicMessage t)) := by
      unfold validate_tonic
      simp only [if_neg hmem]
    rw [Scale.init_eq, hu]
    simp only [hv]
  · intro hmem
    unfold validate_tonic
    simp only [if_pos hmem]
  · refine ⟨". It is possible that this tonic is a valid note name but that " ++
      "building the desired scale from this note would result in a scale with an invalid " ++
      "key signature.", ?_⟩
    unfold invalidTonicMessage
    simp only [String.append_assoc]

/-- Witness for C1, at the spec's own examples: "G# MAJOR" fails construction
with an `InvalidTonicError` carrying "G#", while "G# MINOR" passes tonic
validation. -/
theorem C1_tonic_validation_witness :
    Scale.init "G# MAJOR" = .error (.invalidTonicError (invalidTonicMessage "G#")) ∧
    validate_tonic ⟨"G#", "MINOR"⟩ = .ok () := by
  have h := C1_tonic_validation "G# MAJOR" "G#" "MAJOR" (by decide)
  have h' := C1_tonic_validation "G# MINOR" "G#" "MINOR" (by decide)
  exact ⟨h.1 (by decide), h'.2.1 (by decide)⟩

/-- C3: the key signature of G major is exactly ["F#"], of F major exactly
["Bb"], and of C# major all seven sharps in the fixed order
F#, C#, G#, D#, A#, E#, B# (hence length 7). -/
theorem C3_key_signature_examples :
    (Scale.init "G MAJOR").map Scale.key_signature = .ok ["F#"] ∧
    (Scale.init "F MAJOR").map Scale.key_signature = .ok ["Bb"] ∧
    (Scale.init "C# MAJOR").map Scale.key_signature =
      .ok ["F#", "C#", "G#", "D#", "A#", "E#", "B#"] ∧
    (Scale.init "C# MAJOR").map (fun sc => sc.key_signature.length) = .ok 7 := by
  exact ⟨rfl, rfl, rfl, rfl⟩

/-- Executable check used for claim C2: construction of the named scale
succeeds, yields exactly 7 notes, and the first note's letter is the tonic's
letter. -/
def scaleOk7 (name tonic : String) : Bool :=
  match Scale.init name, noteFromName tonic with
  | .ok sc, some tn =>
    sc.notes.length == 7 &&
      (match sc.notes.head? with
       | some n0 => n0.letter == tn.letter
       | none => false)
  | _, _ => false

/-- Unfolding of a successful `scaleOk7` check into its three properties. -/
theorem scaleOk7_spec {name tonic : String} (h : scaleOk7 name tonic = true) :
    ∃ sc, Scale.init name = .ok sc ∧ sc.notes.length = 7 ∧
      ∃ tn, noteFromName tonic = some tn ∧
        ∃ n0, sc.notes.head? = some n0 ∧ n0.letter = tn.letter := by
  unfold scaleOk7 at h
  cases hi : Scale.init name with
  | error e => rw [hi] at h; simp at h
  | ok sc =>
    rw [hi] at h
    cases hn : noteFromName tonic with
    | none => rw [hn] at h; simp at h
    | some tn =>
      rw [hn] at h
      replace h : (sc.notes.length == 7 &&
          (match sc.notes.head? with
           | some n0 => n0.letter == tn.letter
           | none => false)) = true := h
      cases hh : sc.notes.head? with
      | none => rw [hh] at h; simp at h
      | some n0 =>
        rw [hh] at h
        simp only [Bool.and_eq_true, beq_iff_eq] at h
        exact ⟨sc, rfl, h.1, tn, rfl, n0, hh, h.2⟩

/-- C2: for every tonic in the 15-element legal major list with quality MAJOR,
and every tonic in the 15-element legal minor list with each minor quality,
construction succeeds, the notes sequence has length exactly 7, and the note
at index 0 has the tonic's letter. -/
theorem C2_all_legal_tonics_build (t : String) :
    (t ∈ VALID_SCALE_NAMES "MAJOR" →
      ∃ sc, Scale.init (t ++ " MAJOR") = .ok sc ∧ sc.notes.length = 7 ∧
        ∃ tn, noteFromName t = some tn ∧
          ∃ n0, sc.notes.head? = some n0 ∧ n0.letter = tn.letter) ∧
    (t ∈ VALID_SCALE_NAMES "MINOR" →
      ∀ q ∈ ["NATURAL MINOR", "HARMONIC MINOR", "MELODIC MINOR"],
        ∃ sc, Scale.init (t ++ " " ++ q) = .ok sc ∧ sc.notes.length = 7 ∧
          ∃ tn, noteFromName t = some tn ∧
            ∃ n0, sc.notes.head? = some n0 ∧ n0.letter = tn.letter) := by
  have hmaj : ∀ x ∈ VALID_SCALE_NAMES "MAJOR", scaleOk7 (x ++ " MAJOR") x = true := by decide
  have hmin : ∀ x ∈ VALID_SCALE_NAMES "MINOR",
      ∀ q ∈ ["NATURAL MINOR", "HARMONIC MINOR", "MELODIC MINOR"],
        scaleOk7 (x ++ " " ++ q) x = true := by decide
  exact ⟨fun ht => scaleOk7_spec (hmaj t ht),
    fun ht q hq => scaleOk7_spec (hmin t ht q hq)⟩

/-- Witness for C2 at tonic G# with quality HARMONIC MINOR. -/
theorem C2_all_legal_tonics_build_witness :
    ∃ sc, Scale.init ("G#" ++ " " ++ "HARMONIC MINOR") = .ok sc ∧ sc.notes.length = 7 ∧
      ∃ tn, noteFromName "G#" = some tn ∧
        ∃ n0, sc.notes.head? = some n0 ∧ n0.letter = tn.letter :=
  (C2_all_legal_tonics_build "G#").2 (by decide) "HARMONIC MINOR" (by decide)

/-- A successful `build_scale` pins the quality to one of the four table keys. -/
theorem build_ok_quality {t q : String} {ns : List Note}
    (h : build_scale t q = .ok ns) :
    q = "MAJOR" ∨ q = "NATURAL MINOR" ∨ q = "HARMONIC MINOR" ∨ q = "MELODIC MINOR" := by
  by_contra hc
  push_neg at hc
  obtain ⟨h1, h2, h3, h4⟩ := hc
  unfold build_scale SCALE_INTERVALS at h
  rw [if_neg h1, if_neg h2, if_neg h3, if_neg h4] at h
  simp only [exbind_error] at h
  exact absurd h (by simp)

/-- A successful `validate_tonic` pins the tonic into the applicable legal list. -/
theorem validate_ok_mem {u : UnpackedScaleName} (h : validate_tonic u = .ok ()) :
    u.TONIC ∈ (if pyIn "MINOR" u.QUALITY then VALID_SCALE_NAMES "MINOR"
               else VALID_SCALE_NAMES "MAJOR") := by
  by_contra hc
  unfold validate_tonic at h
  simp only [if_neg hc] at h
  exact absurd h (by simp)

/-- Exhaustive check: with quality MAJOR, the key signature of a legal major
tonic is empty exactly for tonic C. -/
theorem fetch_empty_major :
    ∀ t ∈ VALID_SCALE_NAMES "MAJOR",
      (fetch_key_signature t "MAJOR" = .ok ([] : List String) ↔ t = "C") := by decide

/-- Exhaustive check: with a minor quality, the key signature of a legal minor
tonic is empty exactly for tonic A. -/
theorem fetch_empty_minor :
    ∀ t ∈ VALID_SCALE_NAMES "MINOR",
      ∀ q ∈ ["NATURAL MINOR", "HARMONIC MINOR", "MELODIC MINOR"],
        (fetch_key_signature t q = .ok ([] : List String) ↔ t = "A") := by decide

/-- The fully evaluated A harmonic minor scale object. -/
def aHarmonicMinorScale : Scale :=
  ⟨"A", "HARMONIC MINOR",
   [⟨.A, .natural⟩, ⟨.B, .natural⟩, ⟨.C, .natural⟩, ⟨.D, .natural⟩,
    ⟨.E, .natural⟩, ⟨.F, .natural⟩, ⟨.G, .sharp⟩], []⟩

/-- Counterexample to C4 as stated: "A HARMONIC MINOR" constructs successfully
with an empty key signature, yet the scale is neither C major nor A natural
minor (its quality is "HARMONIC MINOR"), so the claimed equivalence fails. -/
theorem C4_counterexample :
    (Scale.init "A HARMONIC MINOR").map Scale.key_signature = .ok [] ∧
    (Scale.init "A HARMONIC MINOR").map Scale.tonic = .ok "A" ∧
    (Scale.init "A HARMONIC MINOR").map Scale.quality = .ok "HARMONIC MINOR" ∧
    ¬(∀ (s : String) (sc : Scale), Scale.init s = .ok sc →
        (sc.key_signature = [] ↔
          (sc.tonic = "C" ∧ sc.quality = "MAJOR") ∨
          (sc.tonic = "A" ∧ sc.quality = "NATURAL MINOR"))) := by
  refine ⟨rfl, rfl, rfl, ?_⟩
  intro hclaim
  have h : Scale.init "A HARMONIC MINOR" = .ok aHarmonicMinorScale := by decide
  rcases (hclaim _ _ h).mp rfl with ⟨h1, -⟩ | ⟨-, h2⟩
  · exact absurd h1 (by decide)
  · exact absurd h2 (by decide)

/-- C4 (amended): for every successfully constructed Scale, the key signature
is empty iff the tonic is C with quality MAJOR, or the tonic is A with a minor
quality (any of the natural, harmonic or melodic variants). -/
theorem C4_empty_key_signature (s : String) (sc : Scale)
    (h : Scale.init s = .ok sc) :
    sc.key_signature = [] ↔
      (sc.tonic = "C" ∧ sc.quality = "MAJOR") ∨
      (sc.tonic = "A" ∧ pyIn "MINOR" sc.quality = true) := by
  obtain ⟨u, hu, hv, hb, hf, ht, hq⟩ := Scale.init_ok_elim h
  rw [ht, hq]
  have hmem := validate_ok_mem hv
  rcases build_ok_quality hb with hQ | hQ | hQ | hQ
  · have hpy : pyIn "MINOR" u.QUALITY = false := by rw [hQ]; decide
    rw [if_neg (by rw [hpy]; simp)] at hmem
    have hiff := fetch_empty_major u.TONIC hmem
    rw [hQ] at hf
    rw [hf] at hiff
    simp only [Except.ok.injEq] at hiff
    rw [hiff, hQ]
    constructor
    · intro hc
      exact Or.inl ⟨hc, rfl⟩
    · rintro (⟨hc, -⟩ | ⟨-, hpy2⟩)
      · exact hc
      · exact absurd hpy2 (by decide)
  all_goals {
    have hpy : pyIn "MINOR" u.QUALITY = true := by rw [hQ]; decide
    rw [if_pos hpy] at hmem
    have hq3 : u.QUALITY ∈ ["NATURAL MINOR", "HARMONIC MINOR", "MELODIC MINOR"] := by
      rw [hQ]; decide
    have hiff := fetch_empty_minor u.TONIC hmem u.QUALITY hq3
    rw [hf] at hiff
    simp only [Except.ok.injEq] at hiff
    rw [hiff]
    constructor
    · intro hc
      exact Or.inr ⟨hc, hpy⟩
    · rintro (⟨-, hc⟩ | ⟨ha, -⟩)
      · rw [hQ] at hc
        exact absurd hc (by decide)
      · exact ha
  }

/-- The fully evaluated C major scale object. -/
def cMajorScale : Scale :=
  ⟨"C", "MAJOR",
   [⟨.C, .natural⟩, ⟨.D, .natural⟩, ⟨.E, .natural⟩, ⟨.F, .natural⟩,
    ⟨.G, .natural⟩, ⟨.A, .natural⟩, ⟨.B, .natural⟩], []⟩

/-- Witness for the amended C4, at the concrete scale "C MAJOR". -/
theorem C4_empty_key_signature_witness :
    cMajorScale.key_signature = [] ↔
      (cMajorScale.tonic = "C" ∧ cMajorScale.quality = "MAJOR") ∨
      (cMajorScale.tonic = "A" ∧ pyIn "MINOR" cMajorScale.quality = true) :=
  C4_empty_key_signature "C MAJOR" cMajorScale (by decide)

/-- C5: the key-signature lookup qualifies the tonic with " MINOR" whenever the
quality contains "MINOR" (and " MAJOR" otherwise), so it cannot distinguish
minor variants; consequently, for every legal minor tonic, the scales built
with the NATURAL, HARMONIC and MELODIC MINOR qualities construct successfully
with identical key signatures. -/
theorem C5_minor_variants_same_signature :
    (∀ t q1 q2 : String, pyIn "MINOR" q1 = true → pyIn "MINOR" q2 = true →
      fetch_key_signature t q1 = fetch_key_signature t q2) ∧
    (∀ t ∈ VALID_SCALE_NAMES "MINOR",
      ((Scale.init (t ++ " NATURAL MINOR")).map Scale.key_signature).isOk = true ∧
      (Scale.init (t ++ " NATURAL MINOR")).map Scale.key_signature =
        (Scale.init (t ++ " HARMONIC MINOR")).map Scale.key_signature ∧
      (Scale.init (t ++ " NATURAL MINOR")).map Scale.key_signature =
        (Scale.init (t ++ " MELODIC MINOR")).map Scale.key_signature) := by
  constructor
  · intro t q1 q2 h1 h2
    unfold fetch_key_signature
    simp only [h1, h2]
  · decide

/-- Witness for C5, at tonic A and the NATURAL/HARMONIC pair of qualities. -/
theorem C5_minor_variants_same_signature_witness :
    fetch_key_signature "A" "NATURAL MINOR" = fetch_key_signature "A" "HARMONIC MINOR" ∧
    ((Scale.init ("A" ++ " NATURAL MINOR")).map Scale.key_signature).isOk = true :=
  ⟨C5_minor_variants_same_signature.1 "A" "NATURAL MINOR" "HARMONIC MINOR"
      (by decide) (by decide),
    (C5_minor_variants_same_signature.2 "A" (by decide)).1⟩

/-- C10: the quality string is never validated during construction: whenever
the parsed tonic is in the legal list selected by the quality but the quality
is not a key of the interval-pattern table, `validate_tonic` passes and
construction fails inside `build_scale` with a raw `KeyError` carrying the
quality, which is neither an `InvalidTonicError` nor an `InvalidDegreeError`. -/
theorem C10_quality_not_validated (s t q : String)
    (hu : unpack_scale_name s = .ok ⟨t, q⟩)
    (ht : t ∈ (if pyIn "MINOR" q then VALID_SCALE_NAMES "MINOR"
               else VALID_SCALE_NAMES "MAJOR"))
    (hq : SCALE_INTERVALS q = none) :
    validate_tonic ⟨t, q⟩ = .ok () ∧
    Scale.init s = .error (.keyError q) ∧
    (∀ m, PyError.keyError q ≠ .invalidTonicError m ∧
      PyError.keyError q ≠ .invalidDegreeError m) := by
  have hv : validate_tonic ⟨t, q⟩ = .ok () := by
    unfold validate_tonic
    simp only [if_pos ht]
  refine ⟨hv, ?_, fun m => ⟨by simp, by simp⟩⟩
  have hbuild : build_scale t q = .error (.keyError q) := by
    unfold build_scale
    rw [hq]
    simp only [exbind_error]
  rw [Scale.init_eq, hu]
  simp only [hv, hbuild]

/-- Witness for C10, at the scale name "C FOO": the tonic C is legal for the
(non-minor) quality FOO, yet FOO is not an interval-table key, so construction
fails with a raw `KeyError "FOO"`. -/
theorem C10_quality_not_validated_witness :
    validate_tonic ⟨"C", "FOO"⟩ = .ok () ∧
    Scale.init "C FOO" = .error (.keyError "FOO") ∧
    (∀ m, PyError.keyError "FOO" ≠ .invalidTonicError m ∧
      PyError.keyError "FOO" ≠ .invalidDegreeError m) :=
  C10_quality_not_validated "C FOO" "C" "FOO" (by decide) (by decide) (by decide)

/-- Union of the legal major-tonic and minor-tonic lists. -/
def allTonics : List String :=
  ["A", "B", "C", "D", "E", "F", "G", "C#", "F#", "Ab", "Bb", "Cb", "Db", "Eb", "Gb",
   "A#", "D#", "G#"]

/-- The four quality names present in the interval-pattern table. -/
def allQualities : List String :=
  ["MAJOR", "NATURAL MINOR", "HARMONIC MINOR", "MELODIC MINOR"]

/-- Executable check: whenever `build_scale` succeeds for this tonic and
quality, it yields 7 notes whose first note carries the tonic's letter. -/
def buildCheck (t q : String) : Bool :=
  match build_scale t q, noteFromName t with
  | .ok ns, some tn =>
    ns.length == 7 &&
      (match ns.head? with
       | some n0 => n0.letter == tn.letter
       | none => false)
  | .ok _, none => false
  | .error _, _ => true

/-- Exhaustive check of `buildCheck` over every legal tonic and table quality. -/
theorem buildCheck_all : ∀ t ∈ allTonics, ∀ q ∈ allQualities, buildCheck t q = true := by
  decide

/-- Every legal major tonic is in the union list. -/
theorem major_sub_allTonics : ∀ t ∈ VALID_SCALE_NAMES "MAJOR", t ∈ allTonics := by decide

/-- Every legal minor tonic is in the union list. -/
theorem minor_sub_allTonics : ∀ t ∈ VALID_SCALE_NAMES "MINOR", t ∈ allTonics := by decide

/-- Unfolding of a successful `buildCheck` for a successful `build_scale`. -/
theorem buildCheck_spec {t q : String} {ns : List Note}
    (hc : buildCheck t q = true) (hb : build_scale t q = .ok ns) :
    ns.length = 7 ∧
      ∃ tn, noteFromName t = some tn ∧
        ∃ n0, ns.head? = some n0 ∧ n0.letter = tn.letter := by
  unfold buildCheck at hc
  rw [hb] at hc
  cases hn : noteFromName t with
  | none => rw [hn] at hc; simp at hc
  | some tn =>
    rw [hn] at hc
    replace hc : (ns.length == 7 &&
        (match ns.head? with
         | some n0 => n0.letter == tn.letter
         | none => false)) = true := hc
    cases hh : ns.head? with
    | none => rw [hh] at hc; simp at hc
    | some n0 =>
      rw [hh] at hc
      simp only [Bool.and_eq_true, beq_iff_eq] at hc
      exact ⟨hc.1, tn, rfl, n0, rfl, hc.2⟩

/-- Every successfully constructed scale satisfies the note-sequence
invariants: 7 notes, the first carrying the tonic's letter. -/
theorem init_ok_notes {s : String} {sc : Scale} (h : Scale.init s = .ok sc) :
    sc.notes.length = 7 ∧
      ∃ tn, noteFromName sc.tonic = some tn ∧
        ∃ n0, sc.notes.head? = some n0 ∧ n0.letter = tn.letter := by
  obtain ⟨u, hu, hv, hb, hf, ht, hq⟩ := Scale.init_ok_elim h
  have hmem := validate_ok_mem hv
  have htu : u.TONIC ∈ allTonics := by
    by_cases hpy : pyIn "MINOR" u.QUALITY = true
    · rw [if_pos hpy] at hmem
      exact minor_sub_allTonics u.TONIC hmem
    · rw [if_neg hpy] at hmem
      exact major_sub_allTonics u.TONIC hmem
  have hQm : u.QUALITY ∈ allQualities := by
    rcases build_ok_quality hb with hQ | hQ | hQ | hQ <;> rw [hQ] <;> decide
  rw [ht]
  exact buildCheck_spec (buildCheck_all u.TONIC htu u.QUALITY hQm) hb

/-- C7: construction is atomic in the embedding: `Scale.init` either returns a
complete Scale value, with all four attributes set and the note-sequence
invariants (7 notes, first note on the tonic's letter) holding, or returns an
error and no Scale at all, so no partially built Scale is observable. -/
theorem C7_atomic_construction (s : String) :
    (∃ sc : Scale, Scale.init s = .ok sc ∧ sc.notes.length = 7 ∧
      ∃ tn, noteFromName sc.tonic = some tn ∧
        ∃ n0, sc.notes.head? = some n0 ∧ n0.letter = tn.letter) ∨
    (∃ e, Scale.init s = .error e) := by
  cases hi : Scale.init s with
  | error e => exact Or.inr ⟨e, rfl⟩
  | ok sc =>
    have hinv := init_ok_notes hi
    exact Or.inl ⟨sc, rfl, hinv.1, hinv.2⟩

/-- C8: on every successfully constructed scale, `ascend` returns exactly the
display (qualified) name of each note, in the same tonic-first ascending order
as the notes sequence, with exactly 7 entries.  In the embedding `ascend` is a
pure function of the scale value, so repeated calls agree and cannot mutate
the underlying sequence. -/
theorem C8_ascend_names (s : String) (sc : Scale) (h : Scale.init s = .ok sc) :
    sc.ascend = sc.notes.map Note.qualified_name ∧ sc.ascend.length = 7 := by
  refine ⟨rfl, ?_⟩
  unfold Scale.ascend
  rw [List.length_map]
  exact (init_ok_notes h).1

/-- Witness for C8, at the concrete scale "C MAJOR". -/
theorem C8_ascend_names_witness :
    cMajorScale.ascend = cMajorScale.notes.map Note.qualified_name ∧
    cMajorScale.ascend.length = 7 :=
  C8_ascend_names "C MAJOR" cMajorScale (by decide)

/-- Round trip: parsing a note's qualified name returns that note. -/
theorem noteFromName_qualified : ∀ n : Note, noteFromName n.qualified_name = some n := by
  decide

/-- C9: the membership test is true exactly when some note of the scale's note
sequence equals the argument, and it is reflexive over `ascend`: every name
produced by `ascend`, re-parsed as a Note, is contained in the scale. -/
theorem C9_membership :
    (∀ (sc : Scale) (note : Note),
      sc.containsNote note = true ↔ ∃ m ∈ sc.notes, m = note) ∧
    (∀ (sc : Scale) (nm : String), nm ∈ sc.ascend →
      ∃ n, noteFromName nm = some n ∧ sc.containsNote n = true) := by
  constructor
  · intro sc note
    rw [show (sc.containsNote note = true) ↔ note ∈ sc.notes from List.elem_iff]
    constructor
    · intro hm
      exact ⟨note, hm, rfl⟩
    · rintro ⟨m, hm, rfl⟩
      exact hm
  · intro sc nm hnm
    unfold Scale.ascend at hnm
    rw [List.mem_map] at hnm
    obtain ⟨m, hm, hqn⟩ := hnm
    refine ⟨m, ?_, ?_⟩
    · rw [← hqn]
      exact noteFromName_qualified m
    · exact (show (sc.containsNote m = true) ↔ m ∈ sc.notes from List.elem_iff).mpr hm

/-- Witness for C9, at the concrete scale "C MAJOR" and the note C natural. -/
theorem C9_membership_witness :
    (cMajorScale.containsNote ⟨.C, .natural⟩ = true ↔
      ∃ m ∈ cMajorScale.notes, m = (⟨.C, .natural⟩ : Note)) ∧
    (∃ n, noteFromName "C" = some n ∧ cMajorScale.containsNote n = true) :=
  ⟨C9_membership.1 cMajorScale ⟨.C, .natural⟩,
   C9_membership.2 cMajorScale "C" (by decide)⟩

/-- Recognized degree names look up to their own index. -/
theorem degree_names_lookup_self :
    ∀ p ∈ degree_names, degree_names.lookup p.1 = some p.2 := by decide

/-- An unrecognized degree name looks up to nothing. -/
theorem degree_names_lookup_none (d : String) (hd : d ∉ degree_names.map Prod.fst) :
    degree_names.lookup d = none := by
  simp only [degree_names, List.map, List.mem_cons, List.not_mem_nil, or_false,
    not_or] at hd
  obtain ⟨h1, h2, h3, h4, h5, h6, h7⟩ := hd
  simp [degree_names, List.lookup, beq_eq_false_iff_ne.mpr h1, beq_eq_false_iff_ne.mpr h2,
    beq_eq_false_iff_ne.mpr h3, beq_eq_false_iff_ne.mpr h4, beq_eq_false_iff_ne.mpr h5,
    beq_eq_false_iff_ne.mpr h6, beq_eq_false_iff_ne.mpr h7]

/-- C6: on a scale whose quality is MAJOR or contains MINOR, degree lookup
maps each of the seven recognized degree names (case-sensitively, via the
tonic=0 … leading tone=6 table `degree_names`) to the note at that index,
and raises `InvalidDegreeError` for every unrecognized name; on a scale of
any other quality, every degree request raises `InvalidDegreeError`. -/
theorem C6_degree_access :
    (∀ sc : Scale, sc.quality = "MAJOR" ∨ pyIn "MINOR" sc.quality = true →
      (∀ p ∈ degree_names, ∀ n, sc.notes.get? p.2 = some n → sc.getitem p.1 = .ok n) ∧
      (∀ d, d ∉ degree_names.map Prod.fst →
        sc.getitem d = .error (.invalidDegreeError ("Invalid degree name: " ++ d)))) ∧
    (∀ sc : Scale, sc.quality ≠ "MAJOR" → pyIn "MINOR" sc.quality = false →
      ∀ d, sc.getitem d =
        .error (.invalidDegreeError "Only major and minor scales are subscriptable")) := by
  constructor
  · intro sc hq
    have hcond : ¬(sc.quality ≠ "MAJOR" ∧ pyIn "MINOR" sc.quality = false) := by
      rcases hq with h | h
      · intro hc
        exact hc.1 h
      · intro hc
        rw [h] at hc
        exact absurd hc.2 (by simp)
    constructor
    · intro p hp n hn
      unfold Scale.getitem
      rw [if_neg hcond]
      simp only [degree_names_lookup_self p hp, hn]
    · intro d hd
      unfold Scale.getitem
      rw [if_neg hcond, degree_names_lookup_none d hd]
  · intro sc h1 h2 d
    unfold Scale.getitem
    rw [if_pos ⟨h1, h2⟩]

/-- Witness for C6: on the C major scale, "TONIC" returns the first note and
"NONSENSE" is rejected; on a scale of quality "CHROMATIC", every degree
request is rejected. -/
theorem C6_degree_access_witness :
    cMajorScale.getitem "TONIC" = .ok ⟨.C, .natural⟩ ∧
    cMajorScale.getitem "NONSENSE" =
      .error (.invalidDegreeError ("Invalid degree name: " ++ "NONSENSE")) ∧
    (Scale.mk "C" "CHROMATIC" [] []).getitem "TONIC" =
      .error (.invalidDegreeError "Only major and minor scales are subscriptable") :=
  ⟨(C6_degree_access.1 cMajorScale (Or.inl rfl)).1 ("TONIC", 0) (by decide)
      ⟨.C, .natural⟩ rfl,
   (C6_degree_access.1 cMajorScale (Or.inl rfl)).2 "NONSENSE" (by decide),
   C6_degree_access.2 ⟨"C", "CHROMATIC", [], []⟩ (by decide) (by decide) "TONIC"⟩

end Musictheorpy
